import Mathlib

/- Verification development for the UN recordings harvest-and-archive
pipeline.  The definitions below are shallow embeddings of the Python
sources: the reference-counted folder lifecycle manager and concurrent
upload worker of `src/helpers/extract_and_upload_folders.py`, and the
retrying fetch layer, page-count discovery, deduplicating uploader and
archive extraction loop of `src/scraper.py`.  Network transports, the
remote blob store and the HTML extraction step are abstracted at their
interface boundary (a response per attempt, a probe / put result per
call, a list of parsed pagination links), exactly as the specification
scopes them. -/

/-! ## Folder lifecycle manager (`UploadCounters`, extract_and_upload_folders.py)

The tracking map `folder_files : Dict[str, Set[str]]` is embedded as an
association list from folder path to the list of tracked file paths
(Python sets of strings, kept duplicate-free by `setAdd`).  Insertion
order of dict keys and set elements is preserved, mirroring CPython. -/

/-- The tracking map `folder_files`: folder path to set of in-flight files. -/
abbrev FMap := List (String × List String)

/-- Dictionary lookup: first binding of the key, if any. -/
def lookupF : FMap → String → Option (List String)
  | [], _ => none
  | (k, v) :: t, key => if k = key then some v else lookupF t key

/-- Dictionary update of an existing key (first binding). -/
def updateKey : FMap → String → List String → FMap
  | [], _, _ => []
  | (k, v) :: t, key, s => if k = key then (key, s) :: t else (k, v) :: updateKey t key s

/-- Dictionary `del m[key]`. -/
def eraseKey (m : FMap) (key : String) : FMap :=
  m.filter (fun p => p.1 != key)

/-- Python `set.add`: no-op when the element is present, else insert. -/
def setAdd (s : List String) (x : String) : List String :=
  if x ∈ s then s else s ++ [x]

/-- `UploadCounters.add_file_to_folder`: create the folder entry if absent,
then add the file to its set. -/
def add_file_to_folder (m : FMap) (folder file : String) : FMap :=
  match lookupF m folder with
  | none => m ++ [(folder, [file])]
  | some s => updateKey m folder (setAdd s file)

/-- `UploadCounters.remove_file_from_folder`: `discard` the file from the
folder entry (a no-op when absent, like Python `set.discard`); when the set
becomes empty, delete the entry and return `true` (caller must delete the
directory); otherwise return `false`. -/
def remove_file_from_folder (m : FMap) (folder file : String) : FMap × Bool :=
  match lookupF m folder with
  | none => (m, false)
  | some s =>
    let s2 := s.erase file
    if s2 = [] then (eraseKey m folder, true) else (updateKey m folder s2, false)

/-! ### Trace semantics of register/release

`upload_single_file` performs, per file: `add_file_to_folder` (register),
the upload, then `remove_file_from_folder` (release), and calls
`delete_folder_if_empty` — a recursive directory removal — exactly when
release returned `true`.  A run of the thread pool is an interleaving of
these per-file event sequences; `runTrace` replays one interleaving and
records every physical deletion the workers would issue. -/

/-- One lifecycle event: a worker registering or releasing a file. -/
inductive Ev where
  | reg (folder file : String)
  | rel (folder file : String)
deriving DecidableEq

/-- Effect of one event on the tracking map; a release that returns `true`
emits the folder whose physical deletion is now issued. -/
def stepEv (m : FMap) : Ev → FMap × Option String
  | .reg folder file => (add_file_to_folder m folder file, none)
  | .rel folder file =>
    let r := remove_file_from_folder m folder file
    (r.1, if r.2 then some folder else none)

/-- Replay a whole event trace, collecting the issued folder deletions in
order. -/
def runTrace (m : FMap) : List Ev → FMap × List String
  | [] => (m, [])
  | e :: t =>
    let s := stepEv m e
    let rest := runTrace s.1 t
    (rest.1, s.2.toList ++ rest.2)

/-- The sequence of physical folder deletions issued by a trace, from the
empty tracking map. -/
def deletionsList (tr : List Ev) : List String :=
  (runTrace [] tr).2

/-- A trace is a legal schedule of one worker per file: every file of the
folder is registered exactly once and released exactly once, the
registration precedes the release (program order inside
`upload_single_file`), and no other events occur. -/
def workerInterleaving (folder : String) (files : List String) (tr : List Ev) : Prop :=
  files.Nodup ∧
  (∀ e ∈ tr, ∃ f ∈ files, e = Ev.reg folder f ∨ e = Ev.rel folder f) ∧
  (∀ f ∈ files,
    tr.count (Ev.reg folder f) = 1 ∧ tr.count (Ev.rel folder f) = 1 ∧
    tr.findIdx (fun e => e == Ev.reg folder f) < tr.findIdx (fun e => e == Ev.rel folder f))

/-- Folding the registration phase over the tracking map. -/
def regFold (folder : String) (m : FMap) (l : List String) : FMap :=
  l.foldl (fun m f => add_file_to_folder m folder f) m

/-- A two-worker (or sequential pool) schedule in which worker 1 finishes
its file before worker 2 registers its own. -/
def cexTrace : List Ev :=
  [Ev.reg "A" "f1", Ev.rel "A" "f1", Ev.reg "A" "f2", Ev.rel "A" "f2"]

/-! ## Resilient fetch layer (`make_request_with_retries`, scraper.py)

The transport is abstracted as the response the server would give to the
`i`-th `requests.get` call.  The embedding returns the function's result
together with the number of attempts actually made, the sleeps performed
between attempts, and the rows appended to the status CSV (status tag and
error message), which is how the source records terminal failures. -/

/-- Outcome of one `requests.get` call: a body, an HTTP error status (from
`raise_for_status`), a transport timeout, a connection error, or another
request exception. -/
inductive Att where
  | ok (body : String)
  | http (status : Nat)
  | timeout
  | connErr
  | reqExc (msg : String)
deriving DecidableEq

/-- Observable result of `make_request_with_retries`: the returned
response body (none models returning `None`), the number of attempts
made, the sleep durations performed, and the CSV rows written
(status tag, error message). -/
structure FetchResult where
  response : Option String
  attempts : Nat
  sleeps : List Nat
  csv : List (String × String)
deriving DecidableEq

/-- The `for attempt in range(retries)` loop of `make_request_with_retries`,
with `fuel` iterations left and `i` the index of the next attempt. -/
def requestLoop (resp : Nat → Att) (delay : Nat) : Nat → Nat → FetchResult
  | 0, _ => ⟨none, 0, [], [("REQUEST_FAILED", "Max retries exceeded")]⟩
  | fuel + 1, i =>
    match resp i with
    | .ok b => ⟨some b, 1, [], []⟩
    | .http s =>
      if s / 100 = 5 then
        let r := requestLoop resp delay fuel (i + 1)
        ⟨r.response, r.attempts + 1, delay :: r.sleeps, r.csv⟩
      else if s / 100 = 4 then
        ⟨none, 1, [], [("REQUEST_404", "HTTP " ++ toString s)]⟩
      else
        ⟨none, 1, [],
          [("REQUEST_HTTP_ERROR", "HTTP " ++ toString s),
           ("REQUEST_FAILED", "Max retries exceeded")]⟩
    | .timeout =>
      let r := requestLoop resp delay fuel (i + 1)
      ⟨r.response, r.attempts + 1, delay :: r.sleeps, r.csv⟩
    | .connErr =>
      let r := requestLoop resp delay fuel (i + 1)
      ⟨r.response, r.attempts + 1, delay :: r.sleeps, r.csv⟩
    | .reqExc msg =>
      ⟨none, 1, [],
        [("REQUEST_EXCEPTION", msg), ("REQUEST_FAILED", "Max retries exceeded")]⟩

/-- `make_request_with_retries(url, headers, retries, delay)` over an
abstract transport. -/
def make_request_with_retries (resp : Nat → Att) (retries delay : Nat) : FetchResult :=
  requestLoop resp delay retries 0

/-- An attempt outcome the loop retries after sleeping the fixed delay:
a 5xx status, a timeout, or a connection error. -/
def retriableAtt : Att → Bool
  | .http s => s / 100 == 5
  | .timeout => true
  | .connErr => true
  | _ => false

/-! ## Page-count discovery (`get_total_pages`, scraper.py)

The pagination control is abstracted as the list of pager links, each
carrying the page number parsed from its `href` when the `page=(\d+)`
pattern matched (`none` when it did not). -/

/-- One iteration of the `max_page` accumulation loop. -/
def maxStep (mx : Nat) (l : Option Nat) : Nat :=
  match l with
  | some n => Nat.max mx n
  | none => mx

/-- The `max_page` computed over all pager links, starting from 0. -/
def maxPageOf (links : List (Option Nat)) : Nat :=
  links.foldl maxStep 0

/-- The tail of `get_total_pages` once the page was fetched: one page when
no pager links are present, otherwise the highest referenced index plus
one. -/
def total_pages_of_links (links : List (Option Nat)) : Nat :=
  if links = [] then 1 else maxPageOf links + 1

/-- `get_total_pages(url)`: fetch the page with the retrying layer; a
failed fetch yields 1; otherwise count pages from the parsed pager
links. -/
def get_total_pages (resp : Nat → Att) (retries delay : Nat)
    (parse : String → List (Option Nat)) : Nat :=
  match (make_request_with_retries resp retries delay).response with
  | none => 1
  | some body => total_pages_of_links (parse body)

/-! ## Deduplicating uploader (`blob_exists`, `upload_mp3_to_gcs`)

The remote store is abstracted by the result of the one `blob.exists`
call (a boolean, or an exception escaping its retry wrapper after
exhausting retries) and of the one `blob.upload_from_filename` call.
The embedding additionally records whether `upload_from_filename` was
invoked at all, which is the observable "bytes were transferred" fact. -/

/-- Result of the `blob.exists(timeout=60, retry=...)` call. -/
inductive ProbeR where
  | val (b : Bool)
  | exc (msg : String)
deriving DecidableEq

/-- Result of the `blob.upload_from_filename(...)` call. -/
inductive PutR where
  | ok
  | exc (msg : String)
deriving DecidableEq

/-- What `upload_mp3_to_gcs` returns (a plain boolean in the source),
together with whether the transfer call was invoked. -/
structure UploadResult where
  success : Bool
  putCalled : Bool
deriving DecidableEq

/-- `blob_exists(bucket, blob_name)`: `False` without a bucket; the
probe's answer; `False` when the probe raised (the `except` clause). -/
def blob_exists (bucket : Bool) (probe : ProbeR) : Bool :=
  if bucket = false then false
  else
    match probe with
    | .val b => b
    | .exc _ => false

/-- `upload_mp3_to_gcs(bucket, mp3_file, relative_path)`: skip (returning
`True`, no transfer) when the blob already exists; otherwise transfer,
returning `True` on success and `False` when the transfer raised. -/
def upload_mp3_to_gcs (bucket : Bool) (probe : ProbeR) (put : PutR) : UploadResult :=
  if bucket = false then ⟨false, false⟩
  else if blob_exists bucket probe then ⟨true, false⟩
  else
    match put with
    | .ok => ⟨true, true⟩
    | .exc _ => ⟨false, true⟩

/-! ## Per-file worker (`upload_single_file`) and run counters -/

/-- The shared `UploadCounters` counter fields. -/
structure Counters where
  uploaded : Nat
  skipped : Nat
  failed : Nat
deriving DecidableEq

/-- One `upload_single_file` execution on the shared state: register the
file, update the counters from the upload's boolean result
(`increment_uploaded` or `increment_failed`), release the file, and
report whether `delete_folder_if_empty` is now invoked. -/
def upload_single_file_step (m : FMap) (folder file : String) (uploadOk : Bool)
    (c : Counters) : FMap × Counters × Bool :=
  let m1 := add_file_to_folder m folder file
  let c1 :=
    if uploadOk then { c with uploaded := c.uploaded + 1 }
    else { c with failed := c.failed + 1 }
  let r := remove_file_from_folder m1 folder file
  (r.1, c1, r.2)

/-! ## Archive extraction path (`extract_and_upload_zip`, scraper.py)

The extracted files are the local filesystem model; `outcome f` is the
boolean `upload_mp3_to_gcs` returns for file `f`.  The per-file loop
removes a file exactly when its upload returned `True`; the function then
removes the whole extraction directory (`shutil.rmtree`). -/

/-- The per-file upload loop: success count and the files still on disk
after the loop. -/
def uploadLoopZip (outcome : String → Bool) : List String → Nat × List String
  | [] => (0, [])
  | f :: t =>
    let r := uploadLoopZip outcome t
    if outcome f then (r.1 + 1, r.2) else (r.1, f :: r.2)

/-- `extract_and_upload_zip`: returns `(success_count, total_count,
error_message)` and the files left on disk afterwards (the final
`shutil.rmtree` removes the extraction directory and everything in it). -/
def extract_and_upload_zip (outcome : String → Bool) (files : List String) :
    (Nat × Nat × String) × List String :=
  if files = [] then ((0, 0, "No MP3 files found in ZIP"), [])
  else
    let r := uploadLoopZip outcome files
    ((r.1, files.length, ""), [])

/-! ## Specification-side release (for the error-handling comparison) -/

/-- Release as the specification words it (section 7): a release without a
prior matching registration — a double release included — surfaces a
ProgrammingInvariantViolation instead of being ignored; a matching
release behaves as the code does. -/
def release_checked (m : FMap) (folder file : String) : Except String (FMap × Bool) :=
  match lookupF m folder with
  | none => .error "ProgrammingInvariantViolation"
  | some s =>
    if file ∈ s then .ok (remove_file_from_folder m folder file)
    else .error "ProgrammingInvariantViolation"

/-- Whether a checked release surfaced a violation. -/
def isViolationError : Except String (FMap × Bool) → Bool
  | .error _ => true
  | .ok _ => false

/-! ## Helper lemmas on the tracking map -/

theorem lookupF_eraseKey (m : FMap) (k : String) : lookupF (eraseKey m k) k = none := by
  induction m with
  | nil => rfl
  | cons p t ih =>
    obtain ⟨a, b⟩ := p
    by_cases h : a = k
    · subst h
      simpa [eraseKey, List.filter_cons] using ih
    · simpa [eraseKey, List.filter_cons, h, lookupF] using ih

theorem lookupF_mem (m : FMap) (k : String) (s : List String)
    (h : lookupF m k = some s) : (k, s) ∈ m := by
  induction m with
  | nil => simp [lookupF] at h
  | cons p t ih =>
    obtain ⟨a, b⟩ := p
    by_cases hak : a = k
    · subst hak
      simp [lookupF] at h
      subst h
      exact List.mem_cons_self _ _
    · simp [lookupF, hak] at h
      exact List.mem_cons_of_mem _ (ih h)

theorem updateKey_self (m : FMap) (k : String) (s : List String)
    (h : lookupF m k = some s) : updateKey m k s = m := by
  induction m with
  | nil => rfl
  | cons p t ih =>
    obtain ⟨a, b⟩ := p
    by_cases hak : a = k
    · subst hak
      simp [lookupF] at h
      simp [updateKey, h]
    · simp [lookupF, hak] at h
      simp [updateKey, hak, ih h]

theorem lookupF_updateKey (m : FMap) (k : String) (s0 s : List String)
    (h : lookupF m k = some s0) : lookupF (updateKey m k s) k = some s := by
  induction m with
  | nil => simp [lookupF] at h
  | cons p t ih =>
    obtain ⟨a, b⟩ := p
    by_cases hak : a = k
    · subst hak
      simp [updateKey, lookupF]
    · simp [lookupF, hak] at h
      simp [updateKey, lookupF, hak, ih h]

/-! ## Helper lemmas on trace replay -/

theorem runTrace_append (t1 t2 : List Ev) (m : FMap) :
    runTrace m (t1 ++ t2) =
      ((runTrace (runTrace m t1).1 t2).1,
        (runTrace m t1).2 ++ (runTrace (runTrace m t1).1 t2).2) := by
  induction t1 generalizing m with
  | nil => simp [runTrace]
  | cons e t ih => simp [runTrace, ih, List.append_assoc]

theorem regRun (folder : String) (l : List String) (m : FMap) :
    runTrace m (l.map (Ev.reg folder)) = (regFold folder m l, []) := by
  induction l generalizing m with
  | nil => rfl
  | cons f t ih => simpa [runTrace, stepEv, regFold] using ih (add_file_to_folder m folder f)

theorem regFold_singleton (folder : String) (l : List String) :
    ∀ s : List String, (s ++ l).Nodup →
      regFold folder [(folder, s)] l = [(folder, s ++ l)] := by
  induction l with
  | nil =>
    intro s _
    simp [regFold]
  | cons f t ih =>
    intro s hnd
    have hfs : f ∉ s := by
      rcases List.nodup_append.mp hnd with ⟨_, _, hdisj⟩
      intro hmem
      exact hdisj hmem (List.mem_cons_self f t)
    have hadd : add_file_to_folder [(folder, s)] folder f = [(folder, s ++ [f])] := by
      simp [add_file_to_folder, lookupF, setAdd, hfs, updateKey]
    have hnd2 : ((s ++ [f]) ++ t).Nodup := by
      simpa [List.append_assoc] using hnd
    have := ih (s ++ [f]) hnd2
    calc regFold folder [(folder, s)] (f :: t)
        = regFold folder (add_file_to_folder [(folder, s)] folder f) t := rfl
      _ = regFold folder [(folder, s ++ [f])] t := by rw [hadd]
      _ = [(folder, (s ++ [f]) ++ t)] := this
      _ = [(folder, s ++ f :: t)] := by simp [List.append_assoc]

theorem regFold_nil (folder : String) (l : List String)
    (hnd : l.Nodup) (hne : l ≠ []) :
    regFold folder [] l = [(folder, l)] := by
  cases l with
  | nil => exact absurd rfl hne
  | cons f t =>
    have hadd : add_file_to_folder [] folder f = [(folder, [f])] := by
      simp [add_file_to_folder, lookupF]
    have hnd2 : ([f] ++ t).Nodup := by simpa using hnd
    calc regFold folder [] (f :: t)
        = regFold folder (add_file_to_folder [] folder f) t := rfl
      _ = regFold folder [(folder, [f])] t := by rw [hadd]
      _ = [(folder, [f] ++ t)] := regFold_singleton folder t [f] hnd2
      _ = [(folder, f :: t)] := by simp

theorem relRun (folder : String) :
    ∀ l2 : List String, l2 ≠ [] → ∀ s : List String, s.Nodup → l2.Perm s →
      runTrace [(folder, s)] (l2.map (Ev.rel folder)) = ([], [folder]) ∧
      (∀ k, k < l2.length →
        (runTrace [(folder, s)] ((l2.take k).map (Ev.rel folder))).2 = []) := by
  intro l2
  induction l2 with
  | nil => intro h; exact absurd rfl h
  | cons x t ih =>
    intro _ s hnd hperm
    have hlk : lookupF [(folder, s)] folder = some s := by simp [lookupF]
    by_cases ht : t = []
    · subst ht
      have hs : s = [x] := by
        have := hperm.symm
        exact List.perm_singleton.mp this
      subst hs
      refine ⟨?_, ?_⟩
      · simp [runTrace, stepEv, remove_file_from_folder, lookupF, eraseKey,
          List.erase_cons_head, List.filter_cons]
      · intro k hk
        have hk0 : k = 0 := by simp at hk; omega
        subst hk0
        simp [runTrace]
    · have hperm2 : t.Perm (s.erase x) := by
        have := hperm.erase x
        simpa [List.erase_cons_head] using this
      have hnd2 : (s.erase x).Nodup := hnd.erase x
      have hne2 : s.erase x ≠ [] := by
        intro h0
        have hlen : t.length = (s.erase x).length := hperm2.length_eq
        rw [h0] at hlen
        simp at hlen
        exact ht hlen
      have hstep : remove_file_from_folder [(folder, s)] folder x
          = ([(folder, s.erase x)], false) := by
        simp [remove_file_from_folder, hlk, hne2, updateKey]
      obtain ⟨ihA, ihB⟩ := ih ht (s.erase x) hnd2 hperm2
      refine ⟨?_, ?_⟩
      · simp [runTrace, stepEv, hstep, ihA]
      · intro k hk
        cases k with
        | zero => simp [runTrace]
        | succ j =>
          have hj : j < t.length := by simpa using Nat.lt_of_succ_lt_succ hk
          have hb := ihB j hj
          rw [List.map_take] at hb
          simp [List.take, runTrace, stepEv, hstep, hb]

/-! ## Helper lemmas on the page-count fold -/

theorem le_foldl_maxStep (links : List (Option Nat)) :
    ∀ acc, acc ≤ links.foldl maxStep acc := by
  induction links with
  | nil => intro acc; simp
  | cons l t ih =>
    intro acc
    have h1 : acc ≤ maxStep acc l := by
      cases l with
      | some n => simp [maxStep, Nat.le_max_left]
      | none => simp [maxStep]
    exact le_trans h1 (ih (maxStep acc l))

theorem mem_le_foldl_maxStep (links : List (Option Nat)) :
    ∀ acc v, some v ∈ links → v ≤ links.foldl maxStep acc := by
  induction links with
  | nil => intro acc v h; simp at h
  | cons l t ih =>
    intro acc v h
    rcases List.mem_cons.mp h with h1 | h2
    · subst h1
      have : v ≤ maxStep acc (some v) := by simp [maxStep, Nat.le_max_right]
      exact le_trans this (le_foldl_maxStep t (maxStep acc (some v)))
    · exact ih (maxStep acc l) v h2

theorem foldl_maxStep_le (links : List (Option Nat)) :
    ∀ acc m, acc ≤ m → (∀ v, some v ∈ links → v ≤ m) →
      links.foldl maxStep acc ≤ m := by
  induction links with
  | nil => intro acc m h _; simpa using h
  | cons l t ih =>
    intro acc m hacc hall
    have h1 : maxStep acc l ≤ m := by
      cases l with
      | some n =>
        have hn : n ≤ m := hall n (List.mem_cons_self _ _)
        simp [maxStep, Nat.max_le, hacc, hn]
      | none => simpa [maxStep] using hacc
    exact ih (maxStep acc l) m h1 (fun v hv => hall v (List.mem_cons_of_mem _ hv))

/-! ## Helper lemma on the exhausting retry loop -/

theorem requestLoop_retriable (resp : Nat → Att) (delay : Nat) :
    ∀ fuel i, (∀ j, j < fuel → retriableAtt (resp (i + j)) = true) →
      requestLoop resp delay fuel i =
        ⟨none, fuel, List.replicate fuel delay,
          [("REQUEST_FAILED", "Max retries exceeded")]⟩ := by
  intro fuel
  induction fuel with
  | zero => intro i _; rfl
  | succ n ih =>
    intro i h
    have h0 : retriableAtt (resp i) = true := by
      have := h 0 (Nat.succ_pos n)
      simpa using this
    have hrec := ih (i + 1) (fun j hj => by
      have hx := h (j + 1) (Nat.succ_lt_succ hj)
      have he : i + (j + 1) = i + 1 + j := by omega
      rw [he] at hx
      exact hx)
    cases hr : resp i with
    | ok b => rw [hr] at h0; simp [retriableAtt] at h0
    | http s =>
      rw [hr] at h0
      have hs : s / 100 = 5 := by simpa [retriableAtt] using h0
      simp [requestLoop, hr, hs, hrec, List.replicate]
    | timeout =>
      simp [requestLoop, hr, hrec, List.replicate]
    | connErr =>
      simp [requestLoop, hr, hrec, List.replicate]
    | reqExc m => rw [hr] at h0; simp [retriableAtt] at h0

/-! ## Claim theorems -/

/-- A release returning `true` has removed the folder entry inside the
lock before the physical deletion happens. -/
theorem remove_true_none (m : FMap) (folder file : String)
    (h : (remove_file_from_folder m folder file).2 = true) :
    lookupF (remove_file_from_folder m folder file).1 folder = none := by
  unfold remove_file_from_folder at h ⊢
  split at h
  next heq =>
    simp at h
  next s heq =>
    by_cases he : s.erase file = []
    · simp [he, lookupF_eraseKey]
    · simp [he] at h


/-- C1 (counterexample): the claim that for every folder with N registered
files processed by any interleaving of M concurrent workers the folder's
physical deletion call occurs exactly once, only after all N release
calls, is false.  `cexTrace` is a legal schedule of two workers (each
registers its file before releasing it, as `upload_single_file` does),
yet the folder's physical deletion is issued twice — and the first
deletion is issued before the second file's release. -/
theorem c1_counterexample :
    workerInterleaving "A" ["f1", "f2"] cexTrace ∧ deletionsList cexTrace = ["A", "A"] := by
  constructor
  · unfold workerInterleaving
    decide
  · decide

/-- C1 (amended): when the folder's N files are all registered before any
release occurs — each file registered once and released once, in any
order within each phase — the folder's physical deletion is issued
exactly once, and only after all N releases (every proper prefix of the
release phase issues no deletion); moreover a release that triggers
deletion always leaves the folder's tracked entry removed, so no deletion
is ever issued while the tracked set is non-empty. -/
theorem c1_exactly_once_deletion (folder : String) (files l1 l2 : List String)
    (hnd : files.Nodup) (hne : files ≠ [])
    (h1 : l1.Perm files) (h2 : l2.Perm files) :
    deletionsList (l1.map (Ev.reg folder) ++ l2.map (Ev.rel folder)) = [folder] ∧
    (∀ k, k < l2.length →
      deletionsList (l1.map (Ev.reg folder) ++ (l2.take k).map (Ev.rel folder)) = []) ∧
    (∀ (m : FMap) (file : String), (remove_file_from_folder m folder file).2 = true →
      lookupF (remove_file_from_folder m folder file).1 folder = none) := by
  have hl1nd : l1.Nodup := (h1.nodup_iff).mpr hnd
  have hl1ne : l1 ≠ [] := by
    intro h0
    subst h0
    exact hne h1.symm.eq_nil
  have hl2ne : l2 ≠ [] := by
    intro h0
    subst h0
    exact hne h2.symm.eq_nil
  have hreg : runTrace [] (l1.map (Ev.reg folder)) = ([(folder, l1)], []) := by
    rw [regRun, regFold_nil folder l1 hl1nd hl1ne]
  have hl2l1 : l2.Perm l1 := h2.trans h1.symm
  obtain ⟨hA, hB⟩ := relRun folder l2 hl2ne l1 hl1nd hl2l1
  refine ⟨?_, ?_, ?_⟩
  · rw [deletionsList, runTrace_append, hreg]
    simp [hA]
  · intro k hk
    have hb := hB k hk
    rw [List.map_take] at hb
    rw [deletionsList, runTrace_append, hreg]
    simp [hb]
  · exact fun m file h => remove_true_none m folder file h

/-- C1 (witness): the amended theorem at folder "A" with files f1, f2,
registered in order and released in the opposite order. -/
theorem c1_witness :
    (["f1", "f2"] : List String).Nodup ∧
    deletionsList ((["f1", "f2"].map (Ev.reg "A")) ++ (["f2", "f1"].map (Ev.rel "A"))) = ["A"] :=
  ⟨by decide,
    (c1_exactly_once_deletion "A" ["f1", "f2"] ["f1", "f2"] ["f2", "f1"]
      (by decide) (by decide) (by decide) (by decide)).1⟩

/-- C2: on every tracking map whose entries are non-empty (the invariant
every reachable map satisfies, since `add_file_to_folder` only creates an
entry together with its first element), `remove_file_from_folder` removes
the file from the folder's tracked set, returns `true` exactly when the
set thereby becomes empty — in which case the folder's entry is removed
from the map — and returns `false` in every other case, the tracked set
(when it survives) being the old set with the file discarded. -/
theorem c2_release_semantics (m : FMap) (folder file : String)
    (hwf : ∀ p ∈ m, p.2 ≠ []) :
    ((remove_file_from_folder m folder file).2 = true ↔
      ∃ s, lookupF m folder = some s ∧ s ≠ [] ∧ s.erase file = []) ∧
    (∀ s, lookupF m folder = some s →
      lookupF (remove_file_from_folder m folder file).1 folder =
        (if s.erase file = [] then none else some (s.erase file))) ∧
    (lookupF m folder = none → remove_file_from_folder m folder file = (m, false)) := by
  refine ⟨?_, ?_, ?_⟩
  · cases hlk : lookupF m folder with
    | none =>
      simp only [remove_file_from_folder, hlk]
      constructor
      · intro h; simp at h
      · rintro ⟨s, hs, -, -⟩; simp at hs
    | some s =>
      have hsne : s ≠ [] := hwf (folder, s) (lookupF_mem m folder s hlk)
      simp only [remove_file_from_folder, hlk]
      by_cases he : s.erase file = []
      · simp only [he, if_pos rfl]
        constructor
        · intro _; exact ⟨s, rfl, hsne, he⟩
        · intro _; rfl
      · simp only [if_neg he]
        constructor
        · intro h; simp at h
        · rintro ⟨s2, hs2, -, he2⟩
          injection hs2 with hs2
          subst hs2
          exact absurd he2 he
  · intro s hlk
    simp only [remove_file_from_folder, hlk]
    by_cases he : s.erase file = []
    · simp [he, lookupF_eraseKey]
    · simp [he, lookupF_updateKey m folder s (s.erase file) hlk]
  · intro hlk
    simp [remove_file_from_folder, hlk]

/-- C2 (witness): the release semantics theorem evaluated on the map
tracking the single file "f" for folder "A". -/
theorem c2_witness :
    (∀ p ∈ ([("A", ["f"])] : FMap), p.2 ≠ []) ∧
    ((remove_file_from_folder [("A", ["f"])] "A" "f").2 = true ↔
      ∃ s, lookupF [("A", ["f"])] "A" = some s ∧ s ≠ [] ∧ s.erase "f" = []) :=
  ⟨by decide, (c2_release_semantics [("A", ["f"])] "A" "f" (by decide)).1⟩

/-- C9 (counterexample): the claim that a release of a never-registered
fileId, or a second release of an already-released fileId, is treated as
fatal (a surfaced programming-invariant violation) is false: the source's
`remove_file_from_folder` uses `set.discard` and a membership test, so a
double release returns normally with `false` and an unchanged map — the
very output of an ordinary non-final release — while the
specification-side checked release would surface the violation. -/
theorem c9_counterexample :
    remove_file_from_folder
        (remove_file_from_folder (add_file_to_folder [] "A" "f") "A" "f").1 "A" "f"
      = ([], false) ∧
    isViolationError (release_checked
        (remove_file_from_folder (add_file_to_folder [] "A" "f") "A" "f").1 "A" "f") = true := by
  decide

/-- C9 (amended): a release of a fileId that was never registered for the
folder — the folder being untracked, or tracked with a non-empty set not
containing the fileId — and likewise a second release of an
already-released fileId, is silently ignored: the call returns `false`
and leaves the tracking map unchanged, surfacing no error. -/
theorem c9_silent_ignore (m : FMap) (folder file : String) :
    (lookupF m folder = none → remove_file_from_folder m folder file = (m, false)) ∧
    (∀ s, lookupF m folder = some s → file ∉ s → s ≠ [] →
      remove_file_from_folder m folder file = (m, false)) := by
  constructor
  · intro hlk
    simp [remove_file_from_folder, hlk]
  · intro s hlk hnm hne
    have he : s.erase file = s := List.erase_of_not_mem hnm
    have hup : updateKey m folder s = m := updateKey_self m folder s hlk
    simp [remove_file_from_folder, hlk, he, hne, hup]

/-- C9 (witness): releasing the never-registered file "f" from a folder
tracking only "g" returns `false` and leaves the map unchanged. -/
theorem c9_witness :
    ("f" ∉ (["g"] : List String)) ∧
    remove_file_from_folder [("A", ["g"])] "A" "f" = ([("A", ["g"])], false) :=
  ⟨by decide,
    (c9_silent_ignore [("A", ["g"])] "A" "f").2 ["g"] (by decide) (by decide) (by decide)⟩

/-- C3: a fetch whose first attempt yields an HTTP 4xx status makes
exactly one attempt and returns Absent (`None`) immediately: no retry, no
sleep, and no exception reaches the caller — the function records the
client error in the status CSV and returns. -/
theorem c3_client_error_single_attempt (resp : Nat → Att) (retries delay s : Nat)
    (hr : 1 ≤ retries) (h0 : resp 0 = Att.http s) (h4 : s / 100 = 4) :
    make_request_with_retries resp retries delay =
      ⟨none, 1, [], [("REQUEST_404", "HTTP " ++ toString s)]⟩ := by
  cases retries with
  | zero => omega
  | succ n =>
    simp [make_request_with_retries, requestLoop, h0, h4]

/-- C3 (witness): a transport answering 404 on every attempt, with three
attempts allowed, is queried once and yields Absent. -/
theorem c3_witness :
    1 ≤ 3 ∧
    make_request_with_retries (fun _ => Att.http 404) 3 5 =
      ⟨none, 1, [], [("REQUEST_404", "HTTP " ++ toString 404)]⟩ :=
  ⟨by decide,
    c3_client_error_single_attempt (fun _ => Att.http 404) 3 5 404 (by decide) rfl (by decide)⟩

/-- C4: a fetch whose every attempt yields a retriable outcome — an HTTP
5xx status, a transport timeout, or a connection failure — is attempted
exactly `retries` times with the fixed `delay` slept between attempts,
then returns Absent without raising, recording the terminal Absent in the
status CSV with the reason "Max retries exceeded". -/
theorem c4_retry_bound (resp : Nat → Att) (retries delay : Nat)
    (h : ∀ j, j < retries → retriableAtt (resp j) = true) :
    make_request_with_retries resp retries delay =
      ⟨none, retries, List.replicate retries delay,
        [("REQUEST_FAILED", "Max retries exceeded")]⟩ := by
  have := requestLoop_retriable resp delay retries 0 (fun j hj => by simpa using h j hj)
  simpa [make_request_with_retries] using this

/-- C4 (witness): a transport answering 503 on every attempt, with three
attempts allowed and a delay of 5, is attempted exactly three times with
three fixed-delay sleeps and yields Absent with a recorded reason. -/
theorem c4_witness :
    (∀ j, j < 3 → retriableAtt ((fun _ => Att.http 503) j) = true) ∧
    make_request_with_retries (fun _ => Att.http 503) 3 5 =
      ⟨none, 3, List.replicate 3 5, [("REQUEST_FAILED", "Max retries exceeded")]⟩ :=
  ⟨by decide, c4_retry_bound (fun _ => Att.http 503) 3 5 (by decide)⟩

/-- C5: for every page whose fetch succeeds, the page count is the
highest page index referenced by the pagination control plus one, and 1
when no pagination link is present (so a maximum linked index of 5 yields
a page count of 6). -/
theorem c5_page_count (resp : Nat → Att) (retries delay : Nat)
    (parse : String → List (Option Nat)) (body : String)
    (hf : (make_request_with_retries resp retries delay).response = some body) :
    (parse body = [] → get_total_pages resp retries delay parse = 1) ∧
    (∀ mx, some mx ∈ parse body → (∀ v, some v ∈ parse body → v ≤ mx) →
      get_total_pages resp retries delay parse = mx + 1) := by
  constructor
  · intro hempty
    simp [get_total_pages, hf, total_pages_of_links, hempty]
  · intro mx hmem hbound
    have hne : parse body ≠ [] := List.ne_nil_of_mem hmem
    have hle : maxPageOf (parse body) ≤ mx :=
      foldl_maxStep_le (parse body) 0 mx (Nat.zero_le mx) hbound
    have hge : mx ≤ maxPageOf (parse body) :=
      mem_le_foldl_maxStep (parse body) 0 mx hmem
    have hmax : maxPageOf (parse body) = mx := Nat.le_antisymm hle hge
    simp [get_total_pages, hf, total_pages_of_links, hne, hmax]

/-- C5 (witness): a successfully fetched page whose pagination links
reference pages 3 and 5 (one link without a parsed index) yields a page
count of 6. -/
theorem c5_witness :
    some 5 ∈ ([none, some 3, some 5] : List (Option Nat)) ∧
    get_total_pages (fun _ => Att.ok "body") 3 5 (fun _ => [none, some 3, some 5]) = 6 :=
  ⟨by decide,
    (c5_page_count (fun _ => Att.ok "body") 3 5 (fun _ => [none, some 3, some 5]) "body"
      rfl).2 5 (by decide)
      (by intro v hv; simp at hv; rcases hv with h | h <;> omega)⟩

/-- C10: when the page fetch fails entirely (the retrying layer returns
Absent, whether by exhausting retries or by a non-retryable error), the
page count is 1 — the unreachable page is treated as a single-page
catalog and the pipeline proceeds instead of aborting. -/
theorem c10_fetch_failure_one_page (resp : Nat → Att) (retries delay : Nat)
    (parse : String → List (Option Nat))
    (hf : (make_request_with_retries resp retries delay).response = none) :
    get_total_pages resp retries delay parse = 1 := by
  simp [get_total_pages, hf]

/-- C10 (witness): a transport timing out on both allowed attempts yields
a page count of 1 even though the parser would report page links. -/
theorem c10_witness :
    (make_request_with_retries (fun _ => Att.timeout) 2 5).response = none ∧
    get_total_pages (fun _ => Att.timeout) 2 5 (fun _ => [some 9]) = 1 :=
  ⟨by decide, c10_fetch_failure_one_page (fun _ => Att.timeout) 2 5 (fun _ => [some 9]) (by decide)⟩

/-- C6: when the existence probe exhausts its retries without a
definitive answer (the `blob.exists` call raises out of its retry
wrapper), `blob_exists` assumes the remote object does not exist, and the
uploader therefore proceeds to invoke the transfer rather than skipping
the file or blocking. -/
theorem c6_probe_inconclusive_uploads (msg : String) (put : PutR) :
    blob_exists true (ProbeR.exc msg) = false ∧
    (upload_mp3_to_gcs true (ProbeR.exc msg) put).putCalled = true := by
  cases put <;> simp [blob_exists, upload_mp3_to_gcs]

/-- C7 (counterexample): the claim that a Failed outcome leaves the
file's bytes in place on disk is false: extracting an archive whose only
MP3 file fails to upload ends with the file gone, because
`extract_and_upload_zip` removes the whole extraction directory
regardless of per-file outcomes. -/
theorem c7_counterexample :
    (extract_and_upload_zip (fun _ => false) ["a.mp3"]).2 = [] ∧
    "a.mp3" ∉ (extract_and_upload_zip (fun _ => false) ["a.mp3"]).2 := by
  decide

/-- C7 (amended): during the per-file upload loop a file is deleted only
on a successful (`true`) outcome, so exactly the failed files remain on
disk when the loop finishes; the file's reference is still released on
failure (a sole failed file still triggers the folder deletion call, and
the failure is counted); but the archive-level cleanup then removes the
extraction directory unconditionally, so no file — failed files included
— remains once `extract_and_upload_zip` returns. -/
theorem c7_failed_file_kept_only_until_cleanup (outcome : String → Bool)
    (files : List String) :
    (uploadLoopZip outcome files).2 = files.filter (fun f => !outcome f) ∧
    (extract_and_upload_zip outcome files).2 = [] ∧
    (∀ (folder file : String) (c : Counters),
      (upload_single_file_step [] folder file false c).2.2 = true ∧
      (upload_single_file_step [] folder file false c).2.1.failed = c.failed + 1) := by
  refine ⟨?_, ?_, ?_⟩
  · induction files with
    | nil => rfl
    | cons f t ih =>
      cases hf : outcome f <;> simp [uploadLoopZip, List.filter_cons, hf, ih]
  · by_cases hfe : files = [] <;> simp [extract_and_upload_zip, hfe]
  · intro folder file c
    constructor
    · simp [upload_single_file_step, add_file_to_folder, remove_file_from_folder,
        lookupF, List.erase_cons_head]
    · simp [upload_single_file_step]

/-- C8 (counterexample): the claim that upload returns a tagged outcome
distinguishing Uploaded, AlreadyExisted and Failed is false: the source
returns a plain boolean, so a file confirmed to exist remotely yields the
same value `true` as a fresh upload (indistinguishable by the caller),
and `upload_single_file` therefore counts the duplicate as uploaded — the
skipped-as-duplicate counter stays 0 (its incrementer is never called). -/
theorem c8_counterexample :
    (upload_mp3_to_gcs true (ProbeR.val true) PutR.ok).success =
      (upload_mp3_to_gcs true (ProbeR.val false) PutR.ok).success ∧
    (upload_mp3_to_gcs true (ProbeR.val true) PutR.ok).putCalled = false ∧
    (upload_single_file_step [] "A" "f"
        (upload_mp3_to_gcs true (ProbeR.val true) PutR.ok).success ⟨0, 0, 0⟩).2.1 =
      ⟨1, 0, 0⟩ := by
  decide

/-- C8 (amended): upload returns a boolean outcome that collapses
Uploaded and AlreadyExisted into `true` and Failed into `false`: a file
confirmed to exist remotely yields `true` with the transfer never
invoked (no bytes transferred), a fresh successful transfer also yields
`true`, a failing transfer yields `false` — and the worker's counter
update never touches the skipped counter, whatever the outcome. -/
theorem c8_boolean_outcome (put : PutR) :
    upload_mp3_to_gcs true (ProbeR.val true) put = ⟨true, false⟩ ∧
    upload_mp3_to_gcs true (ProbeR.val false) PutR.ok = ⟨true, true⟩ ∧
    (∀ msg, upload_mp3_to_gcs true (ProbeR.val false) (PutR.exc msg) = ⟨false, true⟩) ∧
    (∀ (m : FMap) (folder file : String) (ok : Bool) (c : Counters),
      ((upload_single_file_step m folder file ok c).2.1).skipped = c.skipped) := by
  refine ⟨rfl, rfl, fun msg => rfl, ?_⟩
  intro m folder file ok c
  cases ok <;> rfl
